import Mathlib

/-
Shallow embedding of the stisim random-number stream subsystem
(src/stisim/streams.py and the parameter-expansion logic of
src/stisim/distributions.py).

The numpy PCG64 bit generator is abstracted by a `BitGen` record of pure
functions: `init seed` is the state of a freshly seeded generator,
`seq st i` is the i-th value of the contiguous draw starting from state
`st` (numpy's `random(size=n)` returns the first `n` values of that
deterministic sequence), `after st n` is the generator state after
drawing `n` values, and `jumped st k` is the state after `k` jumps
(`bit_generator.jumped(jumps=k)`).  Python exceptions are modelled by an
`Err` inductive; in-place mutation that survives a raised exception is
modelled by returning the post-call state next to an `Except` result.
-/

namespace Stisim

/-- Abstraction of a numpy bit generator (PCG64): seeding, the
deterministic value sequence of a contiguous draw, the state after a
draw, and the jump primitive. -/
structure BitGen where
  init : Nat → Nat
  seq : Nat → Nat → Nat
  after : Nat → Nat → Nat
  jumped : Nat → Nat → Nat

/-- Exceptions raised by streams.py and distributions.py, distinguished
the way the Python code distinguishes them (exception class or message). -/
inductive Err where
  | negativeSize
  | notInitialized
  | notReset
  | attributeError
  | indexError
  | repeatName
  | seedRepeat
  | paramLength
  | broadcastError
  | invalidBasis
  | typeError
  | drawFailed
deriving DecidableEq

/-- Largest element of a list of naturals, 0 on the empty list; models
numpy `.max()` on the nonempty arrays where the code calls it. -/
def listMax (l : List Nat) : Nat := l.foldr max 0

/-- Fancy indexing `tbl[us]` of numpy: every index must be in range,
otherwise an IndexError is raised. -/
def lookupAll (tbl : List Nat) (us : List Nat) : Except Err (List Nat) :=
  if ∀ u ∈ us, u < tbl.length then Except.ok (us.map (fun u => tbl.getD u 0))
  else Except.error Err.indexError

/-- First `n` values of the contiguous draw from state `st`. -/
def drawList (g : BitGen) (st n : Nat) : List Nat :=
  (List.range n).map (g.seq st)

/-- Boolean-mask indexing `vals[m]` of numpy: the values at the positions
where the mask is true, in order. -/
def maskSelect (vals : List Nat) (m : List Bool) : List Nat :=
  ((vals.zip m).filter (fun p => p.2)).map (fun p => p.1)

/-- Positions at which a boolean mask is true, in ascending order. -/
def truePositions : List Bool → List Nat
  | [] => []
  | b :: m => (if b then [0] else []) ++ (truePositions m).map (fun i => i + 1)

/-- Registry of streams (class `Streams`): stream names, claimed seed
offsets, initialization flag and the base seed fixed at initialization. -/
structure Streams where
  names : List String
  used_seed_offsets : List Nat
  initialized : Bool
  base_seed : Nat
deriving DecidableEq

/-- Fresh registry (`Streams.__init__`). -/
def Streams.empty : Streams :=
  { names := [], used_seed_offsets := [], initialized := false, base_seed := 0 }

/-- Fix the base seed (`Streams.initialize` in the source). -/
def Streams.setup (r : Streams) (base : Nat) : Streams :=
  { r with base_seed := base, initialized := true }

/-- Register a stream (`Streams.add`): reject when the registry is not
initialized, when the name repeats, or (unless `check_repeats` is off)
when the seed offset repeats; otherwise record the stream and return
`base_seed + seed_offset`. -/
def Streams.add (r : Streams) (nm : String) (offset : Nat) (check_repeats : Bool) :
    Except Err (Nat × Streams) :=
  if r.initialized = false then Except.error Err.notInitialized
  else if nm ∈ r.names then Except.error Err.repeatName
  else if check_repeats = true ∧ offset ∈ r.used_seed_offsets then Except.error Err.seedRepeat
  else
    let used := if check_repeats then offset :: r.used_seed_offsets else r.used_seed_offsets
    Except.ok (r.base_seed + offset,
      { r with names := nm :: r.names, used_seed_offsets := used })

/-- Argument accepted by the sampling entry points: an integer count, an
array of agent identifiers (uids), or a boolean mask. -/
inductive SizeArg where
  | count : Int → SizeArg
  | uids : List Nat → SizeArg
  | mask : List Bool → SizeArg
deriving DecidableEq

/-- Basis of a resolved draw request (the SIZE / UIDS / BOOLS constants). -/
inductive Basis where
  | size
  | uids
  | bools
deriving DecidableEq

/-- The `uids` keyword forwarded by `_pre_draw` to the wrapped sampling
function: absent for count-based requests, the identifier array or the
boolean mask otherwise. -/
inductive UidArg where
  | none
  | ints : List Nat → UidArg
  | bools : List Bool → UidArg
deriving DecidableEq

/-- State of a `MultiStream`.  `slots` is `Option.none` before
`initialize` runs, modelling that the Python attribute does not exist yet
(accessing it raises AttributeError, not NotInitializedException). -/
structure MultiStream where
  name : String
  seed_offset : Nat
  seed : Option Nat
  initialized : Bool
  ready : Bool
  slots : Option (List Nat)
  state : Nat
  init_state : Nat
deriving DecidableEq

/-- Constructor (`MultiStream.__init__`): the seed offset defaults to a
stable hash of the name (`sha256(name) mod 10^8`, abstracted here as the
function `hashName`). -/
def MultiStream.create (hashName : String → Nat) (nm : String)
    (seed_offset : Option Nat) : MultiStream :=
  { name := nm
    seed_offset := seed_offset.getD (hashName nm)
    seed := Option.none
    initialized := false
    ready := true
    slots := Option.none
    state := 0
    init_state := 0 }

/-- Slot argument of `MultiStream.initialize`: an integer `n` means the
sequential slots `0, ..., n-1` (`np.arange(n)`). -/
inductive SlotsArg where
  | num : Nat → SlotsArg
  | table : List Nat → SlotsArg

/-- Resolve the slot argument to the slot table. -/
def SlotsArg.resolve : SlotsArg → List Nat
  | SlotsArg.num n => List.range n
  | SlotsArg.table t => t

/-- Fields written by `MultiStream.initialize` once the seed is known:
the generator is seeded with PCG64(seed) and the resulting state is
recorded as the initial state. -/
def MultiStream.setupFields (g : BitGen) (s : MultiStream) (sd : Nat)
    (sl : SlotsArg) : MultiStream :=
  { s with
    seed := Option.some sd
    slots := Option.some sl.resolve
    state := g.init sd
    init_state := g.init sd
    initialized := true
    ready := true }

/-- Initialization (`MultiStream.initialize`): a no-op when already
initialized; otherwise register with the registry (seed is
`base_seed + seed_offset`) or, without a registry, use the seed offset
directly. -/
def MultiStream.setup (g : BitGen) (s : MultiStream) (reg : Option Streams)
    (sl : SlotsArg) : Except Err (MultiStream × Option Streams) :=
  if s.initialized = true then Except.ok (s, reg)
  else
    match reg with
    | Option.none => Except.ok (s.setupFields g s.seed_offset sl, Option.none)
    | Option.some r =>
        match r.add s.name s.seed_offset true with
        | Except.error e => Except.error e
        | Except.ok (sd, r2) => Except.ok (s.setupFields g sd sl, Option.some r2)

/-- Restore the initial generator state and mark the stream ready
(`MultiStream.reset`). -/
def MultiStream.reset (s : MultiStream) : MultiStream :=
  { s with state := s.init_state, ready := true }

/-- Advance to timestep `ti` (`MultiStream.step`): reset to the initial
state, then take `ti` jumps. -/
def MultiStream.step (g : BitGen) (s : MultiStream) (ti : Nat) : MultiStream :=
  let s2 := s.reset
  { s2 with state := g.jumped s2.state ti }

/-- Type of the function wrapped by the `_pre_draw` decorator: it
receives the stream (with `ready` already cleared), the resolved
underlying draw size, the basis, and the forwarded `uids` argument, and
returns the post-draw stream next to the result. -/
def SamplerBody : Type :=
  MultiStream → Nat → Basis → UidArg → MultiStream × Except Err (List Nat)

/-- Validation shared by all bases in `_pre_draw`: not-initialized and
consumed-stream checks, then clear `ready` and run the wrapped function. -/
def runChecks (s : MultiStream)
    (k : MultiStream → MultiStream × Except Err (List Nat)) :
    MultiStream × Except Err (List Nat) :=
  if s.initialized = false then (s, Except.error Err.notInitialized)
  else if s.ready = false then (s, Except.error Err.notReset)
  else k { s with ready := false }

/-- The `_pre_draw` decorator: normalize the size argument, short-circuit
empty requests before any check, resolve the underlying draw size per
basis (uid basis reads the slot table before the readiness checks, as the
source does), then validate and run the wrapped function. -/
def pre_draw (func : SamplerBody) (s : MultiStream) (arg : SizeArg) :
    MultiStream × Except Err (List Nat) :=
  match arg with
  | SizeArg.count n =>
      if n < 0 then (s, Except.error Err.negativeSize)
      else if n = 0 then (s, Except.ok [])
      else runChecks s (fun t => func t n.toNat Basis.size UidArg.none)
  | SizeArg.uids us =>
      if us.length = 0 then (s, Except.ok [])
      else
        match s.slots with
        | Option.none => (s, Except.error Err.attributeError)
        | Option.some tbl =>
            match lookupAll tbl us with
            | Except.error e => (s, Except.error e)
            | Except.ok sl =>
                runChecks s
                  (fun t => func t (listMax sl + 1) Basis.uids (UidArg.ints us))
  | SizeArg.mask m =>
      if m.length = 0 then (s, Except.ok [])
      else runChecks s (fun t => func t m.length Basis.bools (UidArg.bools m))

/-- Result selection (`MultiStream._select`): pass through for count
basis, select at the identifiers' slots for uid basis, filter by the mask
for bool basis. -/
def MultiStream.selectVals (s : MultiStream) (vals : List Nat) (basis : Basis)
    (u : UidArg) : Except Err (List Nat) :=
  match basis, u with
  | Basis.size, _ => Except.ok vals
  | Basis.uids, UidArg.ints us =>
      match s.slots with
      | Option.none => Except.error Err.attributeError
      | Option.some tbl =>
          match lookupAll tbl us with
          | Except.error e => Except.error e
          | Except.ok sl =>
              if ∀ i ∈ sl, i < vals.length then
                Except.ok (sl.map (fun i => vals.getD i 0))
              else Except.error Err.indexError
  | Basis.bools, UidArg.bools m => Except.ok (maskSelect vals m)
  | _, _ => Except.error Err.invalidBasis

/-- Body of `MultiStream.random`: one contiguous draw of the resolved
size, then selection. -/
def randomBody (g : BitGen) : SamplerBody :=
  fun s n basis u =>
    let vals := drawList g s.state n
    let s2 := { s with state := g.after s.state n }
    (s2, s2.selectVals vals basis u)

/-- The public `MultiStream.random` sampling entry point:
`_pre_draw` wrapping the draw-and-select body. -/
def MultiStream.random (g : BitGen) (s : MultiStream) (arg : SizeArg) :
    MultiStream × Except Err (List Nat) :=
  pre_draw (randomBody g) s arg

/-- A wrapped sampling body whose underlying draw itself raises (for
example a malformed distribution parameter inside the numpy call). -/
def failingBody : SamplerBody :=
  fun s _ _ _ => (s, Except.error Err.drawFailed)

/-- State of a `CentralizedStream`: it owns no generator state (draws go
to the global numpy generator) and always claims seed offset 0. -/
structure CentralizedStream where
  name : String
  initialized : Bool
  seed_offset : Nat
deriving DecidableEq

/-- Constructor (`CentralizedStream.__init__`). -/
def CentralizedStream.create (nm : String) : CentralizedStream :=
  { name := nm, initialized := false, seed_offset := 0 }

/-- Initialization (`CentralizedStream.initialize`): registers with
`check_repeats = false`; the returned seed is ignored. -/
def CentralizedStream.setup (c : CentralizedStream) (reg : Option Streams) :
    Except Err (CentralizedStream × Option Streams) :=
  if c.initialized = true then Except.ok (c, reg)
  else
    match reg with
    | Option.none => Except.ok ({ c with initialized := true }, Option.none)
    | Option.some r =>
        match r.add c.name c.seed_offset false with
        | Except.error e => Except.error e
        | Except.ok (_, r2) => Except.ok ({ c with initialized := true }, Option.some r2)

/-- The `_pre_draw_centralized` decorator: size normalization and the
empty short-circuit only — no initialization check, no readiness check;
uid arrays resolve to their length and masks to their true count. -/
def pre_draw_centralized (func : Nat → Nat → Nat × Except Err (List Nat))
    (gst : Nat) (arg : SizeArg) : Nat × Except Err (List Nat) :=
  match arg with
  | SizeArg.count n =>
      if n < 0 then (gst, Except.error Err.negativeSize)
      else if n = 0 then (gst, Except.ok [])
      else func gst n.toNat
  | SizeArg.uids us =>
      if us.length = 0 then (gst, Except.ok [])
      else func gst us.length
  | SizeArg.mask m =>
      if m.length = 0 then (gst, Except.ok [])
      else func gst (m.count true)

/-- A sampling call on a `CentralizedStream` (for example `random` via
the `__getattr__` wrapping of `np.random`): the stream object itself is
not consulted; `gst` is the state of the global numpy generator. -/
def CentralizedStream.sample (g : BitGen) (_c : CentralizedStream) (gst : Nat)
    (arg : SizeArg) : Nat × Except Err (List Nat) :=
  pre_draw_centralized (fun st n => (g.after st n, Except.ok (drawList g st n))) gst arg

/-- Full pipeline of one run, as the tests exercise it: fresh registry
initialized with the base seed, stream created from its name (seed offset
hashed from the name), registered and seeded, advanced to timestep `ti`,
then sampled with the identifier array `us`. -/
def runSample (g : BitGen) (hashName : String → Nat) (base : Nat) (nm : String)
    (tbl : List Nat) (ti : Nat) (us : List Nat) : Except Err (List Nat) :=
  let reg := Streams.empty.setup base
  let s0 := MultiStream.create hashName nm Option.none
  match s0.setup g (Option.some reg) (SlotsArg.table tbl) with
  | Except.error e => Except.error e
  | Except.ok (s1, _) => (MultiStream.random g (s1.step g ti) (SizeArg.uids us)).2

/-
Parameter-expansion logic of `starsim_gen.rvs` in
src/stisim/distributions.py (multirng mode), lines 39-106.  The model
tracks, for each value the call returns, which per-draw parameter value
the underlying distribution call used for it — the quantity the claim
about per-agent parameter expansion is about.
-/

/-- Number of underlying samples (`n_samples` in `rvs`): the count for a
scalar size, the mask length for a boolean mask, the maximum slot plus
one for an identifier array. -/
def nSamples (slots : List Nat) (size : SizeArg) : Except Err Nat :=
  match size with
  | SizeArg.count n =>
      if n < 0 then Except.error Err.negativeSize else Except.ok n.toNat
  | SizeArg.uids us =>
      match lookupAll slots us with
      | Except.error e => Except.error e
      | Except.ok sl => Except.ok (listMax sl + 1)
  | SizeArg.mask m => Except.ok m.length

/-- Python `len(size)`: the array length; raises TypeError on an integer. -/
def sizeLenArr : SizeArg → Except Err Nat
  | SizeArg.count _ => Except.error Err.typeError
  | SizeArg.uids us => Except.ok us.length
  | SizeArg.mask m => Except.ok m.length

/-- Python `sum(size)`: the element sum of a uid array, the true count of
a boolean mask; raises TypeError on an integer. -/
def sizeSumArr : SizeArg → Except Err Nat
  | SizeArg.count _ => Except.error Err.typeError
  | SizeArg.uids us => Except.ok us.sum
  | SizeArg.mask m => Except.ok (m.count true)

/-- Positions written by the numpy assignment `vals_all[size] = param`:
the identifier values themselves for a uid array, the true positions for
a boolean mask. -/
def sizePositions : SizeArg → List Nat
  | SizeArg.count _ => []
  | SizeArg.uids us => us
  | SizeArg.mask m => truePositions m

/-- Pairwise element assignment `base[idxs] = vs` with equal lengths. -/
def assignPairs (base : List Nat) (idxs : List Nat) (vs : List Nat) : List Nat :=
  (List.zip idxs vs).foldl (fun acc p => acc.set p.1 p.2) base

/-- Numpy fancy assignment `base[idxs] = vs`: IndexError when an index is
out of range, element-wise when the lengths match, broadcast when `vs`
has length one, ValueError otherwise. -/
def assignAt (base : List Nat) (idxs : List Nat) (vs : List Nat) :
    Except Err (List Nat) :=
  if ∃ i ∈ idxs, base.length ≤ i then Except.error Err.indexError
  else if vs.length = idxs.length then Except.ok (assignPairs base idxs vs)
  else if vs.length = 1 then
    Except.ok (idxs.foldl (fun acc i => acc.set i (vs.headD 0)) base)
  else Except.error Err.broadcastError

/-- Expansion of a per-agent parameter array to one value per underlying
draw (`rvs`, lines 80-89): pass through when the length already matches
`n_samples`; otherwise accept a length equal to `len(size)` or
`sum(size)` and place the values at the positions given by the size
argument itself into an array of `n_samples` placeholder ones, raising
the parameter-length error for any other length. -/
def expandParam (slots : List Nat) (size : SizeArg) (param : List Nat) :
    Except Err (List Nat) :=
  match nSamples slots size with
  | Except.error e => Except.error e
  | Except.ok nS =>
      if param.length = nS then Except.ok param
      else
        match sizeLenArr size, sizeSumArr size with
        | Except.error e, _ => Except.error e
        | Except.ok _, Except.error e => Except.error e
        | Except.ok lenS, Except.ok sumS =>
            if param.length = lenS ∨ param.length = sumS then
              assignAt (List.replicate nS 1) (sizePositions size) param
            else Except.error Err.paramLength

/-- For each value returned by `rvs`, the parameter value its underlying
draw used: the expanded parameter array selected the way `rvs` selects
its results (pass-through for scalar sizes, mask filtering for masks,
slot indexing for identifier arrays), with the zero-size short-circuits
of `rvs`. -/
def rvsParamUsed (slots : List Nat) (size : SizeArg) (param : List Nat) :
    Except Err (List Nat) :=
  match size with
  | SizeArg.count n =>
      if n < 0 then Except.error Err.negativeSize
      else if n = 0 then Except.ok []
      else expandParam slots size param
  | SizeArg.uids us =>
      if us.length = 0 then Except.ok []
      else
        match expandParam slots size param with
        | Except.error e => Except.error e
        | Except.ok ep =>
            match lookupAll slots us with
            | Except.error e => Except.error e
            | Except.ok sl =>
                if ∀ i ∈ sl, i < ep.length then
                  Except.ok (sl.map (fun i => ep.getD i 0))
                else Except.error Err.indexError
  | SizeArg.mask m =>
      if m.length = 0 then Except.ok []
      else
        match expandParam slots size param with
        | Except.error e => Except.error e
        | Except.ok ep => Except.ok (maskSelect ep m)

/-- Concrete bit generator used to instantiate the abstract model in
closed statements. -/
def gDemo : BitGen :=
  { init := fun sd => sd
    seq := fun st i => st + i
    after := fun st n => st + 1000 * n
    jumped := fun st j => st + 7 * j }

/-- Concrete stable name hash used in closed statements. -/
def hDemo : String → Nat := fun nm => nm.length

/-- Concrete initialized, ready multi-stream used in closed statements. -/
def sDemo : MultiStream :=
  { name := "t"
    seed_offset := 3
    seed := Option.some 3
    initialized := true
    ready := true
    slots := Option.some [0, 1, 2, 3]
    state := 5
    init_state := 5 }

/-- Concrete initialized but not-ready multi-stream (already sampled on
the current timestep). -/
def sNRDemo : MultiStream := { sDemo with ready := false }

/-- Concrete initialized registry already holding a stream named
"infect" with seed offset 11. -/
def rDemo : Streams :=
  { names := ["infect"], used_seed_offsets := [11], initialized := true, base_seed := 42 }

/-- Concrete initialized registry whose used seed offsets already contain
0, the offset every centralized stream claims. -/
def r9Demo : Streams :=
  { names := ["infect"], used_seed_offsets := [0], initialized := true, base_seed := 42 }

/-
General lemmas about the list operations of the embedding.
-/

theorem le_listMax {l : List Nat} {a : Nat} (h : a ∈ l) : a ≤ listMax l := by
  induction l with
  | nil => cases h
  | cons b t ih =>
      rcases List.mem_cons.mp h with rfl | hm
      · exact le_max_left _ _
      · exact le_trans (ih hm) (le_max_right _ _)

/-- Positive case of `lookupAll`. -/
theorem lookupAll_pos {tbl us : List Nat} (hbound : ∀ u ∈ us, u < tbl.length) :
    lookupAll tbl us = Except.ok (us.map (fun u => tbl.getD u 0)) := by
  unfold lookupAll
  rw [if_pos hbound]

theorem drawList_length (g : BitGen) (st n : Nat) : (drawList g st n).length = n := by
  simp [drawList]

theorem drawList_getD (g : BitGen) (st : Nat) {n i : Nat} (h : i < n) :
    (drawList g st n).getD i 0 = g.seq st i := by
  simp [drawList, List.getD_eq_getElem?_getD, List.getElem?_map, List.getElem?_range h]

theorem maskSelect_eq_map {vals : List Nat} {m : List Bool}
    (h : vals.length = m.length) :
    maskSelect vals m = (truePositions m).map (fun i => vals.getD i 0) := by
  induction m generalizing vals with
  | nil =>
      have : vals = [] := List.length_eq_zero.mp h
      subst this; rfl
  | cons b t ih =>
      cases vals with
      | nil => simp at h
      | cons v vs =>
          have hlen : vs.length = t.length := by simpa using h
          have htail : (truePositions t).map ((fun i => (v :: vs).getD i 0) ∘ fun i => i + 1)
              = (truePositions t).map (fun i => vs.getD i 0) :=
            List.map_congr_left (fun a _ => by simp [Function.comp, List.getD_cons_succ])
          cases b
          · have hL : maskSelect (v :: vs) (false :: t) = maskSelect vs t := rfl
            rw [hL, ih hlen, truePositions]
            simp only [Bool.false_eq_true, if_false, List.nil_append, List.map_map, htail]
          · have hL : maskSelect (v :: vs) (true :: t) = v :: maskSelect vs t := rfl
            rw [hL, ih hlen, truePositions]
            simp only [if_true, List.cons_append, List.nil_append, List.map_cons,
              List.map_map, htail, List.getD_cons_zero]

theorem mem_truePositions_lt {m : List Bool} {i : Nat} (h : i ∈ truePositions m) :
    i < m.length := by
  induction m generalizing i with
  | nil => cases h
  | cons b t ih =>
      simp only [truePositions, List.mem_append, List.mem_map] at h
      rcases h with h | ⟨j, hj, rfl⟩
      · rcases b with _ | _
        · simp at h
        · simp at h; subst h; simp
      · have := ih hj
        simp; omega

theorem truePositions_length (m : List Bool) :
    (truePositions m).length = m.count true := by
  induction m with
  | nil => rfl
  | cons b t ih =>
      rcases b with _ | _ <;>
        simp [truePositions, ih, List.count_cons]

theorem truePositions_nodup (m : List Bool) : (truePositions m).Nodup := by
  induction m with
  | nil => exact List.nodup_nil
  | cons b t ih =>
      rcases b with _ | _
      · simpa [truePositions] using ih.map (fun a b h => by omega)
      · simp only [truePositions, if_pos rfl]
        refine List.Nodup.append (by simp) (ih.map (fun a b h => by omega)) ?_
        intro x hx hy
        simp at hx
        subst hx
        rcases List.mem_map.mp hy with ⟨j, _, hj⟩
        omega

theorem assignPairs_length (base idxs vs : List Nat) :
    (assignPairs base idxs vs).length = base.length := by
  induction idxs generalizing base vs with
  | nil => rfl
  | cons i is ih =>
      cases vs with
      | nil => rfl
      | cons v vt => simpa [assignPairs] using (ih (base.set i v) vt).trans (by simp)

theorem getD_assignPairs_not_mem {base idxs vs : List Nat} {j : Nat}
    (h : j ∉ idxs) : (assignPairs base idxs vs).getD j 0 = base.getD j 0 := by
  induction idxs generalizing base vs with
  | nil => rfl
  | cons i is ih =>
      cases vs with
      | nil => rfl
      | cons v vt =>
          have hji : i ≠ j := fun hh => h (hh ▸ List.mem_cons_self i is)
          have hjs : j ∉ is := fun hh => h (List.mem_cons_of_mem _ hh)
          calc (assignPairs base (i :: is) (v :: vt)).getD j 0
              = (assignPairs (base.set i v) is vt).getD j 0 := rfl
            _ = (base.set i v).getD j 0 := ih hjs
            _ = base.getD j 0 := by
                simp [List.getD_eq_getElem?_getD, List.getElem?_set_ne hji]

theorem assignPairs_read {base idxs vs : List Nat}
    (hnd : idxs.Nodup) (hlen : vs.length = idxs.length)
    (hbound : ∀ i ∈ idxs, i < base.length) :
    idxs.map (fun i => (assignPairs base idxs vs).getD i 0) = vs := by
  induction idxs generalizing base vs with
  | nil =>
      cases vs with
      | nil => rfl
      | cons v vt => simp at hlen
  | cons i is ih =>
      cases vs with
      | nil => simp at hlen
      | cons v vt =>
          have hnotmem : i ∉ is := (List.nodup_cons.mp hnd).1
          have hnd' : is.Nodup := (List.nodup_cons.mp hnd).2
          have hlen' : vt.length = is.length := by simpa using hlen
          have hbound' : ∀ j ∈ is, j < (base.set i v).length := by
            intro j hj; simpa using hbound j (List.mem_cons_of_mem _ hj)
          have hstep : assignPairs base (i :: is) (v :: vt)
              = assignPairs (base.set i v) is vt := rfl
          simp only [List.map_cons, hstep]
          congr 1
          · rw [getD_assignPairs_not_mem hnotmem]
            have hi : i < base.length := hbound i (List.mem_cons_self i is)
            simp [List.getD_eq_getElem?_getD, List.getElem?_set_self (by simpa using hi)]
          · exact ih hnd' hlen' hbound'


/-- Characterization of a uid-basis call to `MultiStream.random` on an
initialized, ready stream: `max(slot) + 1` values are drawn in one
contiguous call, the stream's `ready` flag is cleared and its state
advanced accordingly, and the identifier `u` receives the value at
position `slots[u]` of the draw, in the order the identifiers were
given. -/
theorem random_uids_eq (g : BitGen) (s : MultiStream) (tbl : List Nat) (us : List Nat)
    (hinit : s.initialized = true) (hready : s.ready = true)
    (hslots : s.slots = Option.some tbl)
    (hne : us ≠ []) (hbound : ∀ u ∈ us, u < tbl.length) :
    MultiStream.random g s (SizeArg.uids us) =
      ({ s with
          ready := false,
          state := g.after s.state (listMax (us.map (fun u => tbl.getD u 0)) + 1) },
       Except.ok (us.map (fun u => g.seq s.state (tbl.getD u 0)))) := by
  have hlen0 : ¬ us.length = 0 := fun hh => hne (List.length_eq_zero.mp hh)
  have hsel : ∀ i ∈ us.map (fun u => tbl.getD u 0),
      i < (drawList g s.state (listMax (us.map (fun u => tbl.getD u 0)) + 1)).length := by
    intro i hi
    rw [drawList_length]
    exact Nat.lt_succ_of_le (le_listMax hi)
  unfold MultiStream.random pre_draw
  simp only [hlen0, if_false, hslots, lookupAll, if_pos hbound]
  unfold runChecks
  simp only [hinit, hready, Bool.true_eq_false, if_false]
  unfold randomBody MultiStream.selectVals
  simp only [hslots, lookupAll, if_pos hbound, if_pos hsel]
  refine Prod.ext rfl ?_
  simp only [List.map_map]
  refine congrArg Except.ok (List.map_congr_left ?_)
  intro u hu
  exact drawList_getD g s.state
    (Nat.lt_succ_of_le (le_listMax (List.mem_map_of_mem (fun u => tbl.getD u 0) hu)))

/-- Characterization of a mask-basis call to `MultiStream.random` on an
initialized, ready stream: exactly mask-length values are drawn (the
state advances by that amount) and the values at the true positions are
returned in population order. -/
theorem random_mask_eq (g : BitGen) (s : MultiStream) (m : List Bool)
    (hinit : s.initialized = true) (hready : s.ready = true) (hm : m ≠ []) :
    MultiStream.random g s (SizeArg.mask m) =
      ({ s with ready := false, state := g.after s.state m.length },
       Except.ok ((truePositions m).map (g.seq s.state))) := by
  have hlen0 : ¬ m.length = 0 := fun hh => hm (List.length_eq_zero.mp hh)
  unfold MultiStream.random pre_draw
  simp only [hlen0, if_false]
  unfold runChecks
  simp only [hinit, hready, Bool.true_eq_false, if_false]
  unfold randomBody MultiStream.selectVals
  dsimp only
  rw [maskSelect_eq_map (by rw [drawList_length])]
  refine Prod.ext rfl ?_
  refine congrArg Except.ok (List.map_congr_left ?_)
  intro i hi
  exact drawList_getD g s.state (mem_truePositions_lt hi)

/-- A sampling call never changes the identity fields of a stream: the
name, seed offset, slot table, initialization flag and recorded initial
state survive every branch of `_pre_draw`, including the error branches. -/
theorem random_preserves (g : BitGen) (s : MultiStream) (arg : SizeArg) :
    ((MultiStream.random g s arg).1).init_state = s.init_state
    ∧ ((MultiStream.random g s arg).1).initialized = s.initialized
    ∧ ((MultiStream.random g s arg).1).slots = s.slots
    ∧ ((MultiStream.random g s arg).1).name = s.name := by
  cases arg <;>
    simp only [MultiStream.random, pre_draw, runChecks, randomBody,
      MultiStream.selectVals] <;>
    (repeat' split) <;> simp

/-- Projection facts for `step` and `reset` (definitional). -/
theorem step_state (g : BitGen) (s : MultiStream) (ti : Nat) :
    (MultiStream.step g s ti).state = g.jumped s.init_state ti := rfl

theorem step_ready (g : BitGen) (s : MultiStream) (ti : Nat) :
    (MultiStream.step g s ti).ready = true := rfl

theorem step_initialized (g : BitGen) (s : MultiStream) (ti : Nat) :
    (MultiStream.step g s ti).initialized = s.initialized := rfl

theorem step_slots (g : BitGen) (s : MultiStream) (ti : Nat) :
    (MultiStream.step g s ti).slots = s.slots := rfl

theorem step_init_state (g : BitGen) (s : MultiStream) (ti : Nat) :
    (MultiStream.step g s ti).init_state = s.init_state := rfl

theorem reset_init_state (s : MultiStream) : s.reset.init_state = s.init_state := rfl

/-- Value component of a uid-basis sampling call. -/
theorem random_uids_snd (g : BitGen) (s : MultiStream) (tbl : List Nat) (us : List Nat)
    (hinit : s.initialized = true) (hready : s.ready = true)
    (hslots : s.slots = Option.some tbl)
    (hne : us ≠ []) (hbound : ∀ u ∈ us, u < tbl.length) :
    (MultiStream.random g s (SizeArg.uids us)).2 =
      Except.ok (us.map (fun u => g.seq s.state (tbl.getD u 0))) := by
  rw [random_uids_eq g s tbl us hinit hready hslots hne hbound]

/-- State component of a uid-basis sampling call. -/
theorem random_uids_state (g : BitGen) (s : MultiStream) (tbl : List Nat) (us : List Nat)
    (hinit : s.initialized = true) (hready : s.ready = true)
    (hslots : s.slots = Option.some tbl)
    (hne : us ≠ []) (hbound : ∀ u ∈ us, u < tbl.length) :
    (MultiStream.random g s (SizeArg.uids us)).1.state =
      g.after s.state (listMax (us.map (fun u => tbl.getD u 0)) + 1) := by
  rw [random_uids_eq g s tbl us hinit hready hslots hne hbound]

/-
Claim theorems.
-/

/-- C1 (slot invariance of slot-indexed sampling): on an initialized,
ready MultiStream advanced to any timestep, a uid-basis request draws
`max(slot) + 1` underlying values and returns, for each identifier in the
order given, the value at that identifier's slot; consequently sampling
with identifiers `[a, b]` and then, after a reset and advancing to the
same timestep, sampling with `[a]` alone returns the same value for `a`
in both calls. -/
theorem slot_invariance (g : BitGen) (s : MultiStream) (tbl : List Nat) (ti : Nat)
    (us : List Nat) (a b : Nat)
    (hinit : s.initialized = true) (hslots : s.slots = Option.some tbl)
    (hne : us ≠ []) (hbound : ∀ u ∈ us, u < tbl.length)
    (ha : a < tbl.length) (hb : b < tbl.length) :
    (MultiStream.random g (s.step g ti) (SizeArg.uids us)).2 =
      Except.ok (us.map (fun u => g.seq (g.jumped s.init_state ti) (tbl.getD u 0)))
    ∧ (MultiStream.random g (s.step g ti) (SizeArg.uids us)).1.state =
      g.after (g.jumped s.init_state ti) (listMax (us.map (fun u => tbl.getD u 0)) + 1)
    ∧ (MultiStream.random g (s.step g ti) (SizeArg.uids [a, b])).2 =
      Except.ok [g.seq (g.jumped s.init_state ti) (tbl.getD a 0),
        g.seq (g.jumped s.init_state ti) (tbl.getD b 0)]
    ∧ (MultiStream.random g
        ((((MultiStream.random g (s.step g ti) (SizeArg.uids [a, b])).1).reset).step g ti)
        (SizeArg.uids [a])).2 =
      Except.ok [g.seq (g.jumped s.init_state ti) (tbl.getD a 0)] := by
  have hinitT : (s.step g ti).initialized = true := by
    rw [step_initialized]; exact hinit
  have hslotsT : (s.step g ti).slots = Option.some tbl := by
    rw [step_slots]; exact hslots
  have hab : ∀ u ∈ [a, b], u < tbl.length := by
    intro u hu
    rcases List.mem_cons.mp hu with rfl | hu
    · exact ha
    · rcases List.mem_cons.mp hu with rfl | hu
      · exact hb
      · cases hu
  have hA : ∀ u ∈ [a], u < tbl.length := by
    intro u hu
    rcases List.mem_cons.mp hu with rfl | hu
    · exact ha
    · cases hu
  have hP := random_preserves g (s.step g ti) (SizeArg.uids [a, b])
  have hinit2 :
      (((((MultiStream.random g (s.step g ti) (SizeArg.uids [a, b])).1).reset).step
        g ti)).initialized = true := by
    rw [step_initialized, MultiStream.reset, hP.2.1, step_initialized]; exact hinit
  have hslots2 :
      (((((MultiStream.random g (s.step g ti) (SizeArg.uids [a, b])).1).reset).step
        g ti)).slots = Option.some tbl := by
    rw [step_slots, MultiStream.reset, hP.2.2.1, step_slots]; exact hslots
  refine ⟨?_, ?_, ?_, ?_⟩
  · rw [random_uids_snd g (s.step g ti) tbl us hinitT (step_ready g s ti) hslotsT
      hne hbound, step_state]
  · rw [random_uids_state g (s.step g ti) tbl us hinitT (step_ready g s ti) hslotsT
      hne hbound, step_state]
  · rw [random_uids_snd g (s.step g ti) tbl [a, b] hinitT (step_ready g s ti) hslotsT
      (by simp) hab, step_state]
    rfl
  · rw [random_uids_snd g _ tbl [a] hinit2 (step_ready g _ ti) hslots2 (by simp) hA,
      step_state, reset_init_state, hP.1, step_init_state]
    rfl

/-- C2 (determinism across runs): the full pipeline — fresh registry
initialized with the base seed, a stream whose seed offset is the stable
hash of its name, registration, advancement to a timestep and a uid-basis
sample — returns a value that is a function of exactly the base seed plus
the name hash, the slot table, the timestep index, and the identifiers;
two runs with equal inputs therefore return bit-identical arrays. -/
theorem run_determinism (g : BitGen) (hashName : String → Nat) (base : Nat)
    (nm : String) (tbl : List Nat) (ti : Nat) (us : List Nat)
    (hne : us ≠ []) (hbound : ∀ u ∈ us, u < tbl.length) :
    runSample g hashName base nm tbl ti us =
      Except.ok (us.map (fun u =>
        g.seq (g.jumped (g.init (base + hashName nm)) ti) (tbl.getD u 0))) := by
  have hrun : runSample g hashName base nm tbl ti us =
      (MultiStream.random g
        (MultiStream.step g
          { name := nm,
            seed_offset := hashName nm,
            seed := Option.some (base + hashName nm),
            initialized := true,
            ready := true,
            slots := Option.some tbl,
            state := g.init (base + hashName nm),
            init_state := g.init (base + hashName nm) } ti)
        (SizeArg.uids us)).2 := rfl
  rw [hrun, random_uids_snd g _ tbl us rfl rfl rfl hne hbound, step_state]

/-- C3 (purity and idempotence of timestep advancement): `step ti` first
restores the recorded initial state and then applies `ti` jumps, so the
resulting state is a function only of the initial state and `ti`,
independent of any previous sample, advance or reset history; calling it
twice in a row equals calling it once, and calling it with any other
timestep (smaller included) simply recomputes the state from the initial
state rather than raising. -/
theorem advance_purity (g : BitGen) (s s2 : MultiStream) (ti ti2 : Nat) (arg : SizeArg)
    (hinit : s.initialized = true) (hsame : s2.init_state = s.init_state) :
    (s.step g ti).state = g.jumped s.init_state ti
    ∧ (s.step g ti).ready = true
    ∧ (s.step g ti).step g ti = s.step g ti
    ∧ (s2.step g ti).state = (s.step g ti).state
    ∧ ((s.step g ti).step g ti2).state = g.jumped s.init_state ti2
    ∧ (((MultiStream.random g s arg).1).step g ti).state = g.jumped s.init_state ti := by
  refine ⟨rfl, rfl, rfl, ?_, rfl, ?_⟩
  · show g.jumped s2.init_state ti = g.jumped s.init_state ti
    rw [hsame]
  · show g.jumped ((MultiStream.random g s arg).1).init_state ti =
      g.jumped s.init_state ti
    rw [(random_preserves g s arg).1]

/-- C6 (mask-basis semantics in slot-indexed mode): a mask request over a
population of length L draws exactly L underlying values — the generator
state advances by L — and returns exactly the values at the positions
where the mask is true, in population order. -/
theorem mask_basis_semantics (g : BitGen) (s : MultiStream) (m : List Bool)
    (hinit : s.initialized = true) (hready : s.ready = true) (hm : m ≠ []) :
    (MultiStream.random g s (SizeArg.mask m)).2 =
      Except.ok ((truePositions m).map (g.seq s.state))
    ∧ (MultiStream.random g s (SizeArg.mask m)).1.state = g.after s.state m.length := by
  rw [random_mask_eq g s m hinit hready hm]
  exact ⟨rfl, rfl⟩

/-- C7 (zero-size short-circuit with no state change): in both modes, a
request with count 0 or an empty identifier or mask array returns an
empty array with the stream (and, in centralized mode, the global
generator state) completely unchanged — no readiness check, no
initialization check, no draw. -/
theorem zero_size_noop (g : BitGen) (s : MultiStream) (c : CentralizedStream)
    (gst : Nat) :
    MultiStream.random g s (SizeArg.count 0) = (s, Except.ok [])
    ∧ MultiStream.random g s (SizeArg.uids []) = (s, Except.ok [])
    ∧ MultiStream.random g s (SizeArg.mask []) = (s, Except.ok [])
    ∧ CentralizedStream.sample g c gst (SizeArg.count 0) = (gst, Except.ok [])
    ∧ CentralizedStream.sample g c gst (SizeArg.uids []) = (gst, Except.ok [])
    ∧ CentralizedStream.sample g c gst (SizeArg.mask []) = (gst, Except.ok []) :=
  ⟨rfl, rfl, rfl, rfl, rfl, rfl⟩

/-- C8 (registration semantics): registering fails with the
not-initialized error on an uninitialized registry; fails with the
duplicate-name error whenever the name is already present, whatever the
seed offset; fails with the seed-collision error when the offset is in
use and collision checking is on; succeeds otherwise, recording the
stream (and, only when collision checking is on, the offset) and
returning `base_seed + seed_offset`. -/
theorem register_semantics (rU r : Streams) (nmAny nmDup nmNew : String)
    (offAny offDup offUsed offFree : Nat) (cr : Bool)
    (hrU : rU.initialized = false) (hr : r.initialized = true)
    (hdup : nmDup ∈ r.names) (hnew : nmNew ∉ r.names)
    (hused : offUsed ∈ r.used_seed_offsets) (hfree : offFree ∉ r.used_seed_offsets) :
    rU.add nmAny offAny cr = Except.error Err.notInitialized
    ∧ r.add nmDup offDup cr = Except.error Err.repeatName
    ∧ r.add nmNew offUsed true = Except.error Err.seedRepeat
    ∧ r.add nmNew offFree true =
        Except.ok (r.base_seed + offFree,
          { r with
            names := nmNew :: r.names,
            used_seed_offsets := offFree :: r.used_seed_offsets })
    ∧ r.add nmNew offUsed false =
        Except.ok (r.base_seed + offUsed, { r with names := nmNew :: r.names }) := by
  unfold Streams.add
  refine ⟨by simp [hrU], by simp [hr, hdup], by simp [hr, hnew, hused],
    by simp [hr, hnew, hfree], by simp [hr, hnew]⟩

/-- C9 (centralized-mode request resolution): on a centralized stream a
uid-array request draws exactly the number of identifiers, in call order
and with no slot indirection, and a mask request draws exactly the number
of true entries; and centralized initialization registers with collision
checking disabled, succeeding even when its seed offset is already in use
and leaving the used-offset set unchanged. -/
theorem centralized_semantics (g : BitGen) (c : CentralizedStream) (gst : Nat)
    (us : List Nat) (m : List Bool) (r : Streams)
    (hus : us ≠ []) (hm : m ≠ [])
    (hcini : c.initialized = false) (hr : r.initialized = true)
    (hname : c.name ∉ r.names) (hcollide : c.seed_offset ∈ r.used_seed_offsets) :
    CentralizedStream.sample g c gst (SizeArg.uids us) =
      (g.after gst us.length, Except.ok (drawList g gst us.length))
    ∧ CentralizedStream.sample g c gst (SizeArg.mask m) =
      (g.after gst (m.count true), Except.ok (drawList g gst (m.count true)))
    ∧ c.setup (Option.some r) =
      Except.ok ({ c with initialized := true },
        Option.some { r with names := c.name :: r.names }) := by
  have hus0 : ¬ us.length = 0 := fun hh => hus (List.length_eq_zero.mp hh)
  have hm0 : ¬ m.length = 0 := fun hh => hm (List.length_eq_zero.mp hh)
  refine ⟨?_, ?_, ?_⟩
  · unfold CentralizedStream.sample pre_draw_centralized
    simp [hus0]
  · unfold CentralizedStream.sample pre_draw_centralized
    simp [hm0]
  · unfold CentralizedStream.setup Streams.add
    simp [hcini, hr, hname]

/-- C10 (ready flag is cleared during validation, before the draw): for
every non-empty request on an initialized, ready MultiStream, the wrapped
sampling body — whatever it is — receives the stream with `ready` already
false; hence when the underlying draw itself raises, the stream is left
not ready and a subsequent sampling call on the same timestep raises the
consumed-stream error instead of the original condition. -/
theorem ready_cleared_before_draw (g : BitGen) (body : SamplerBody)
    (s : MultiStream) (tbl : List Nat) (n : Int) (us : List Nat) (m : List Bool)
    (hinit : s.initialized = true) (hready : s.ready = true)
    (hslots : s.slots = Option.some tbl)
    (hn : 0 < n) (hus : us ≠ []) (hbound : ∀ u ∈ us, u < tbl.length) (hm : m ≠ []) :
    pre_draw body s (SizeArg.count n) =
      body { s with ready := false } n.toNat Basis.size UidArg.none
    ∧ pre_draw body s (SizeArg.uids us) =
      body { s with ready := false } (listMax (us.map (fun u => tbl.getD u 0)) + 1)
        Basis.uids (UidArg.ints us)
    ∧ pre_draw body s (SizeArg.mask m) =
      body { s with ready := false } m.length Basis.bools (UidArg.bools m)
    ∧ (pre_draw failingBody s (SizeArg.count n)).2 = Except.error Err.drawFailed
    ∧ ((pre_draw failingBody s (SizeArg.count n)).1).ready = false
    ∧ (MultiStream.random g ((pre_draw failingBody s (SizeArg.count n)).1)
        (SizeArg.count n)).2 = Except.error Err.notReset := by
  have hn0 : ¬ n < 0 := by omega
  have hne0 : ¬ n = 0 := by omega
  have hus0 : ¬ us.length = 0 := fun hh => hus (List.length_eq_zero.mp hh)
  have hm0 : ¬ m.length = 0 := fun hh => hm (List.length_eq_zero.mp hh)
  have hcount : pre_draw body s (SizeArg.count n) =
      body { s with ready := false } n.toNat Basis.size UidArg.none := by
    unfold pre_draw runChecks
    simp [hn0, hne0, hinit, hready]
  have hfail : pre_draw failingBody s (SizeArg.count n) =
      ({ s with ready := false }, Except.error Err.drawFailed) := by
    unfold pre_draw runChecks failingBody
    simp [hn0, hne0, hinit, hready]
  refine ⟨hcount, ?_, ?_, ?_, ?_, ?_⟩
  · unfold pre_draw runChecks
    simp [hus0, hslots, lookupAll, if_pos hbound, hinit, hready]
  · unfold pre_draw runChecks
    simp [hm0, hinit, hready]
  · rw [hfail]
  · rw [hfail]
  · rw [hfail]
    unfold MultiStream.random pre_draw runChecks
    simp [hn0, hne0, hinit]

/-- C4 counterexample: a centralized stream that was never initialized
serves a non-empty sampling request successfully — no not-initialized
error, no consumed-stream error — because `_pre_draw_centralized`
performs no readiness or initialization check at all. -/
theorem readiness_cex :
    (CentralizedStream.create "x").initialized = false
    ∧ (CentralizedStream.sample gDemo (CentralizedStream.create "x") 0
        (SizeArg.count 1)).2 = Except.ok [0] :=
  ⟨rfl, rfl⟩

/-- C4 amended: only the slot-indexed implementation enforces the
readiness and initialization checks.  On a MultiStream, non-empty count
and mask requests on an uninitialized stream raise the not-initialized
error, while a uid request fails earlier at the missing slot table
(AttributeError); an initialized but not-ready stream raises the
consumed-stream error on every basis, and in particular the second of two
samples in one timestep raises it.  The centralized implementation
performs neither check: it serves the request whatever its
initialization state. -/
theorem readiness_amended (g : BitGen) (sU sNR sR : MultiStream) (tbl : List Nat)
    (n : Int) (us : List Nat) (m : List Bool) (c : CentralizedStream) (gst : Nat)
    (hU1 : sU.initialized = false) (hU2 : sU.slots = Option.none)
    (hN1 : sNR.initialized = true) (hN2 : sNR.ready = false)
    (hN3 : sNR.slots = Option.some tbl)
    (hR1 : sR.initialized = true) (hR2 : sR.ready = true)
    (hn : 0 < n) (hus : us ≠ []) (hbound : ∀ u ∈ us, u < tbl.length) (hm : m ≠ []) :
    (MultiStream.random g sU (SizeArg.count n)).2 = Except.error Err.notInitialized
    ∧ (MultiStream.random g sU (SizeArg.mask m)).2 = Except.error Err.notInitialized
    ∧ (MultiStream.random g sU (SizeArg.uids us)).2 = Except.error Err.attributeError
    ∧ (MultiStream.random g sNR (SizeArg.count n)).2 = Except.error Err.notReset
    ∧ (MultiStream.random g sNR (SizeArg.mask m)).2 = Except.error Err.notReset
    ∧ (MultiStream.random g sNR (SizeArg.uids us)).2 = Except.error Err.notReset
    ∧ (MultiStream.random g ((MultiStream.random g sR (SizeArg.count n)).1)
        (SizeArg.count n)).2 = Except.error Err.notReset
    ∧ (CentralizedStream.sample g c gst (SizeArg.count n)).2 =
        Except.ok (drawList g gst n.toNat) := by
  have hn0 : ¬ n < 0 := by omega
  have hne0 : ¬ n = 0 := by omega
  have hus0 : ¬ us.length = 0 := fun hh => hus (List.length_eq_zero.mp hh)
  have hm0 : ¬ m.length = 0 := fun hh => hm (List.length_eq_zero.mp hh)
  have hfirst : (MultiStream.random g sR (SizeArg.count n)).1 =
      { sR with ready := false, state := g.after sR.state n.toNat } := by
    unfold MultiStream.random pre_draw runChecks randomBody
    simp [hn0, hne0, hR1, hR2]
  refine ⟨?_, ?_, ?_, ?_, ?_, ?_, ?_, ?_⟩
  · unfold MultiStream.random pre_draw runChecks
    simp [hn0, hne0, hU1]
  · unfold MultiStream.random pre_draw runChecks
    simp [hm0, hU1]
  · unfold MultiStream.random pre_draw
    simp [hus0, hU2]
  · unfold MultiStream.random pre_draw runChecks
    simp [hn0, hne0, hN1, hN2]
  · unfold MultiStream.random pre_draw runChecks
    simp [hm0, hN1, hN2]
  · unfold MultiStream.random pre_draw runChecks
    simp [hus0, hN3, lookupAll, if_pos hbound, hN1, hN2]
  · rw [hfirst]
    unfold MultiStream.random pre_draw runChecks
    simp [hn0, hne0, hR1]
  · unfold CentralizedStream.sample pre_draw_centralized
    simp [hn0, hne0]

/-- C5 counterexample: with slot table `[0, 3]`, identifier `1` (slot 3)
and the single supplied parameter value `7`, the underlying draw count is
4, the supplied value is placed at index 1 — the identifier's own
position, not its slot — and the draw returned for identifier 1 (at slot
3) uses the placeholder 1, not the supplied 7; the placeholder is read
back, contradicting the claim. -/
theorem param_expansion_cex :
    rvsParamUsed [0, 3] (SizeArg.uids [1]) [7] = Except.ok [1]
    ∧ rvsParamUsed [0, 3] (SizeArg.uids [1]) [7] ≠ Except.ok [7] := by
  refine ⟨rfl, ?_⟩
  intro h
  rw [show rvsParamUsed [0, 3] (SizeArg.uids [1]) [7] = Except.ok [1] from rfl] at h
  exact absurd (Except.ok.inj h) (by decide)

/-- C5 amended: a per-agent parameter array shorter than the underlying
draw count is expanded by assigning its values at the positions given by
the size argument itself — the identifiers' own indices for a uid
request, the true positions for a mask — over an array of placeholder
ones; each returned identifier's draw uses the expanded array at that
identifier's slot, so the i-th identifier's draw uses the i-th supplied
value when every requested identifier's slot equals the identifier itself
(and the placeholder can be read back otherwise), while a mask request
always uses the i-th supplied value for the i-th selected draw; an array
whose length matches neither the identifier count, nor the element sum of
the size array (the true count for masks), nor the underlying draw count
raises the parameter-length error. -/
theorem param_expansion_amended (tbl us p q pm : List Nat) (m : List Bool)
    (hne : us ≠ []) (hbound : ∀ u ∈ us, u < tbl.length)
    (hnd : us.Nodup)
    (hplen : p.length = us.length)
    (hpns : p.length ≠ listMax (us.map (fun u => tbl.getD u 0)) + 1)
    (hid : ∀ u ∈ us, tbl.getD u 0 = u)
    (hq1 : q.length ≠ us.length) (hq2 : q.length ≠ us.sum)
    (hq3 : q.length ≠ listMax (us.map (fun u => tbl.getD u 0)) + 1)
    (hm : m ≠ []) (hpm : pm.length = m.count true) (hpmne : pm.length ≠ m.length) :
    expandParam tbl (SizeArg.uids us) p =
      Except.ok (assignPairs
        (List.replicate (listMax (us.map (fun u => tbl.getD u 0)) + 1) 1) us p)
    ∧ rvsParamUsed tbl (SizeArg.uids us) p = Except.ok p
    ∧ rvsParamUsed tbl (SizeArg.uids us) q = Except.error Err.paramLength
    ∧ rvsParamUsed tbl (SizeArg.mask m) pm = Except.ok pm := by
  have hus0 : ¬ us.length = 0 := fun hh => hne (List.length_eq_zero.mp hh)
  have hm0 : ¬ m.length = 0 := fun hh => hm (List.length_eq_zero.mp hh)
  have hmap : us.map (fun u => tbl.getD u 0) = us := by
    rw [List.map_congr_left hid]
    simp
  have hposM : ∀ u ∈ us, u < listMax (us.map (fun u => tbl.getD u 0)) + 1 := by
    intro u hu
    rw [hmap]
    exact Nat.lt_succ_of_le (le_listMax hu)
  have hrepl : ¬ ∃ i ∈ us,
      (List.replicate (listMax (us.map (fun u => tbl.getD u 0)) + 1) (1 : Nat)).length ≤ i := by
    rintro ⟨i, hiu, hile⟩
    rw [List.length_replicate] at hile
    exact absurd (hposM i hiu) (Nat.not_lt.mpr hile)
  have hexp : expandParam tbl (SizeArg.uids us) p =
      Except.ok (assignPairs
        (List.replicate (listMax (us.map (fun u => tbl.getD u 0)) + 1) 1) us p) := by
    unfold expandParam nSamples sizeLenArr sizeSumArr sizePositions assignAt
    simp only [lookupAll_pos hbound]
    rw [if_neg hpns, if_pos (Or.inl hplen), if_neg hrepl, if_pos hplen]
  have hboundE : ∀ i ∈ us.map (fun u => tbl.getD u 0),
      i < (assignPairs
        (List.replicate (listMax (us.map (fun u => tbl.getD u 0)) + 1) 1) us p).length := by
    intro i hi
    rw [assignPairs_length, List.length_replicate]
    rw [hmap] at hi
    exact hposM i hi
  refine ⟨hexp, ?_, ?_, ?_⟩
  · unfold rvsParamUsed
    simp only [hus0, if_false, hexp, lookupAll_pos hbound]
    rw [if_pos hboundE, hmap]
    refine congrArg Except.ok (assignPairs_read hnd (hplen.trans rfl) ?_)
    intro i hi
    rw [List.length_replicate]
    rw [hmap] at hposM
    exact hposM i hi
  · unfold rvsParamUsed expandParam nSamples sizeLenArr sizeSumArr
    have hq3b := hq3
    simp only [List.getD_eq_getElem?_getD] at hq3b
    simp [hus0, hq1, hq2, hq3, hq3b, lookupAll_pos hbound]
  · have htp : ∀ i ∈ truePositions m, i < (List.replicate m.length (1 : Nat)).length := by
      intro i hi
      rw [List.length_replicate]
      exact mem_truePositions_lt hi
    have hrepl2 : ¬ ∃ i ∈ truePositions m,
        (List.replicate m.length (1 : Nat)).length ≤ i := by
      rintro ⟨i, hi, hile⟩
      exact absurd (htp i hi) (Nat.not_lt.mpr hile)
    have hlenTP : pm.length = (truePositions m).length := by
      rw [truePositions_length]
      exact hpm
    have hexp2 : expandParam tbl (SizeArg.mask m) pm =
        Except.ok (assignPairs (List.replicate m.length 1) (truePositions m) pm) := by
      unfold expandParam nSamples sizeLenArr sizeSumArr sizePositions assignAt
      simp only [if_neg hpmne]
      rw [if_pos (Or.inr hpm), if_neg hrepl2, if_pos hlenTP]
    unfold rvsParamUsed
    simp only [hm0, if_false, hexp2]
    rw [maskSelect_eq_map (by rw [assignPairs_length, List.length_replicate])]
    exact congrArg Except.ok (assignPairs_read (truePositions_nodup m) hlenTP htp)

/-
Witnesses instantiating the claim theorems at concrete inputs.
-/

/-- Witness for slot invariance at a concrete stream, slot table,
timestep and identifier array. -/
theorem slot_invariance_witness :
    sDemo.initialized = true
    ∧ (MultiStream.random gDemo (sDemo.step gDemo 2) (SizeArg.uids [1, 3])).2 =
      Except.ok ([1, 3].map (fun u =>
        gDemo.seq (gDemo.jumped sDemo.init_state 2) ([0, 1, 2, 3].getD u 0))) :=
  ⟨rfl,
    (slot_invariance gDemo sDemo [0, 1, 2, 3] 2 [1, 3] 1 2 rfl rfl (by decide)
      (by decide) (by decide) (by decide)).1⟩

/-- Witness for determinism of the full pipeline at the spec's scenario:
stream "infect", base seed 42, slots 3 and 7. -/
theorem run_determinism_witness :
    ([0, 1] : List Nat) ≠ []
    ∧ runSample gDemo hDemo 42 "infect" [3, 7] 0 [0, 1] =
      Except.ok ([0, 1].map (fun u =>
        gDemo.seq (gDemo.jumped (gDemo.init (42 + hDemo "infect")) 0)
          ([3, 7].getD u 0))) :=
  ⟨by decide,
    run_determinism gDemo hDemo 42 "infect" [3, 7] 0 [0, 1] (by decide) (by decide)⟩

/-- Witness for advancement purity at a concrete stream and timestep. -/
theorem advance_purity_witness :
    sDemo.initialized = true
    ∧ (sDemo.step gDemo 1).state = gDemo.jumped sDemo.init_state 1 :=
  ⟨rfl, (advance_purity gDemo sDemo sDemo 1 2 (SizeArg.count 1) rfl rfl).1⟩

/-- Witness for the amended readiness claim at concrete streams of every
relevant state. -/
theorem readiness_amended_witness :
    (MultiStream.create hDemo "u" Option.none).initialized = false
    ∧ (MultiStream.random gDemo (MultiStream.create hDemo "u" Option.none)
        (SizeArg.count 1)).2 = Except.error Err.notInitialized :=
  ⟨rfl,
    (readiness_amended gDemo (MultiStream.create hDemo "u" Option.none) sNRDemo sDemo
      [0, 1, 2, 3] 1 [1] [true] (CentralizedStream.create "c") 0
      rfl rfl rfl rfl rfl rfl rfl (by decide) (by decide) (by decide) (by decide)).1⟩

/-- Witness for the amended parameter-expansion claim at a concrete slot
table, identifier array and parameter arrays. -/
theorem param_expansion_amended_witness :
    ([7, 9] : List Nat).length = ([1, 3] : List Nat).length
    ∧ expandParam [0, 1, 2, 3] (SizeArg.uids [1, 3]) [7, 9] =
      Except.ok (assignPairs
        (List.replicate (listMax ([1, 3].map (fun u => [0, 1, 2, 3].getD u 0)) + 1) 1)
        [1, 3] [7, 9]) :=
  ⟨rfl,
    (param_expansion_amended [0, 1, 2, 3] [1, 3] [7, 9] [5, 5, 5, 5, 5] [7, 9]
      [true, false, true, false, false] (by decide) (by decide) (by decide)
      (by decide) (by decide) (by decide) (by decide) (by decide) (by decide)
      (by decide) (by decide) (by decide)).1⟩

/-- Witness for mask-basis semantics at the spec's example mask over a
population of five. -/
theorem mask_basis_semantics_witness :
    sDemo.ready = true
    ∧ (MultiStream.random gDemo sDemo
        (SizeArg.mask [true, false, true, false, false])).2 =
      Except.ok ((truePositions [true, false, true, false, false]).map
        (gDemo.seq sDemo.state)) :=
  ⟨rfl,
    (mask_basis_semantics gDemo sDemo [true, false, true, false, false]
      rfl rfl (by decide)).1⟩

/-- Witness for registration semantics at concrete registries. -/
theorem register_semantics_witness :
    Streams.empty.initialized = false
    ∧ Streams.empty.add "a" 0 true = Except.error Err.notInitialized :=
  ⟨rfl,
    (register_semantics Streams.empty rDemo "a" "infect" "fresh" 0 99 11 5 true
      rfl rfl (by decide) (by decide) (by decide) (by decide)).1⟩

/-- Witness for centralized request resolution at a concrete stream,
registry and identifier array. -/
theorem centralized_semantics_witness :
    (CentralizedStream.create "c").initialized = false
    ∧ CentralizedStream.sample gDemo (CentralizedStream.create "c") 0
        (SizeArg.uids [2, 5]) =
      (gDemo.after 0 ([2, 5] : List Nat).length,
        Except.ok (drawList gDemo 0 ([2, 5] : List Nat).length)) :=
  ⟨rfl,
    (centralized_semantics gDemo (CentralizedStream.create "c") 0 [2, 5]
      [true, true, false] r9Demo (by decide) (by decide) rfl rfl (by decide)
      (by decide)).1⟩

/-- Witness for the ready-flag claim at a concrete stream and body. -/
theorem ready_cleared_before_draw_witness :
    sDemo.ready = true
    ∧ pre_draw (randomBody gDemo) sDemo (SizeArg.count 1) =
      randomBody gDemo { sDemo with ready := false } (Int.toNat 1)
        Basis.size UidArg.none :=
  ⟨rfl,
    (ready_cleared_before_draw gDemo (randomBody gDemo) sDemo [0, 1, 2, 3] 1 [1]
      [true] rfl rfl rfl (by decide) (by decide) (by decide) (by decide)).1⟩

end Stisim
